import Mathlib

/-!
Verification of the gwemopt driver (`gwemopt/__main__.py`) and of the
spec-described core components (tiler, time allocator, scheduler).

The driver's control flow is embedded as a function producing the ordered
list of observable steps the run performs; an early `exit(0)` truncates the
trace.  Components whose implementation lives outside the driver file are
modelled from the specification text, as marked in their doc comments.
-/

namespace Gwemopt

/-- The observable steps of a driver run, in source order of
`gwemopt/__main__.py`.  Each constructor corresponds to one call or exit
site in the main script. -/
inductive Step : Type
  | paramsStruct
  | exitFilters
  | eventLoad
  | footprintGen
  | exitNoSource
  | segments
  | readSkymap
  | catalog
  | plotSkymap
  | observability
  | plotObservability
  | writeEfficiencyTrue
  | exitObservability
  | samples
  | split
  | tilingMoc
  | tilingRanked
  | tilingHierarchical
  | tilingGreedy
  | tilingGalaxy
  | exitTilesType
  | plotTiles
  | timeallocation
  | exitScheduleNoTiles
  | readCoverage
  | summary
  | plotCoverage
  | efficiency
  | exitEfficiency
  deriving DecidableEq, Repr

/-- The command-line options of the driver that steer its control flow
(`parse_commandline` / `params_struct`), restricted to the fields the
main script branches on. -/
structure Opts : Type where
  doEvent : Bool
  doFootprint : Bool
  doSkymap : Bool
  doSamples : Bool
  doCoverage : Bool
  doSchedule : Bool
  doPlots : Bool
  doTiles : Bool
  doObservability : Bool
  doObservabilityExit : Bool
  doTrueLocation : Bool
  doCatalog : Bool
  doSplit : Bool
  doEfficiency : Bool
  tilesType : String
  filters : List String
  exposuretimes : List ℚ
  telescopes : List String
  observability_thresh : ℚ
  deriving Repr

/-- A conditional one-step block: `if b: step()` in the driver. -/
def optStep (b : Bool) (s : Step) : List Step :=
  if b then [s] else []

/-- The `tilesType` dispatch of the driver (lines 572-627): which tiling
strategy step a given tag selects, `none` for unrecognized tags. -/
def strategyFor (t : String) : Option Step :=
  if t = "moc" then some Step.tilingMoc
  else if t = "ranked" then some Step.tilingRanked
  else if t = "hierarchical" then some Step.tilingHierarchical
  else if t = "greedy" then some Step.tilingGreedy
  else if t = "galaxy" then some Step.tilingGalaxy
  else none

/-- Whether a step is the execution of one of the five tiling strategies. -/
def isStrategy : Step → Bool
  | Step.tilingMoc => true
  | Step.tilingRanked => true
  | Step.tilingHierarchical => true
  | Step.tilingGreedy => true
  | Step.tilingGalaxy => true
  | _ => false

/-- Driver lines 667-696: the efficiency block, which exits when neither
scheduling nor coverage ran. -/
def effBlock (o : Opts) : List Step :=
  if o.doEfficiency then
    (if o.doSchedule || o.doCoverage then [Step.efficiency] else [Step.exitEfficiency])
  else []

/-- Driver lines 649-665: coverage summary and optional plotting. -/
def summaryBlock (o : Opts) : List Step :=
  Step.summary :: optStep o.doPlots Step.plotCoverage

/-- Driver lines 634-647: time allocation requires tiling; reading coverage
from file is the alternative. -/
def schedBlock (o : Opts) : List Step :=
  if o.doSchedule then
    (if o.doTiles then Step.timeallocation :: (summaryBlock o ++ effBlock o)
     else [Step.exitScheduleNoTiles])
  else if o.doCoverage then Step.readCoverage :: (summaryBlock o ++ effBlock o)
  else effBlock o

/-- Driver lines 572-631: tiling strategy dispatch; an unrecognized
`tilesType` exits the program. -/
def tilesBlock (o : Opts) : List Step :=
  if o.doTiles then
    match strategyFor o.tilesType with
    | some s => s :: (optStep o.doPlots Step.plotTiles ++ schedBlock o)
    | none => [Step.exitTilesType]
  else schedBlock o

/-- Driver lines 560-570: sample generation and map splitting. -/
def samplesSplitBlock (o : Opts) : List Step :=
  optStep o.doSamples Step.samples ++ optStep o.doSplit Step.split ++ tilesBlock o

/-- Driver lines 529-558: the observability-exit loop.  The program writes
the true-location efficiency files and exits as soon as some telescope's
summed observability probability is below the threshold. -/
def obsExitTrace (o : Opts) : List Step :=
  optStep o.doTrueLocation Step.writeEfficiencyTrue ++ [Step.exitObservability]

/-- Driver lines 522-558: the observability block.  `obs` is the summed
observability probability per telescope computed by the external
`gwemopt.utils.observability` collaborator. -/
def obsBlock (o : Opts) (obs : String → ℚ) : List Step :=
  if o.doObservability then
    Step.observability :: optStep o.doPlots Step.plotObservability ++
      (if o.doObservabilityExit &&
          o.telescopes.any (fun t => decide (obs t < o.observability_thresh))
       then obsExitTrace o
       else samplesSplitBlock o)
  else samplesSplitBlock o

/-- Driver lines 505-528: telescope segments, skymap reading, catalog and
skymap plotting, then the observability block. -/
def afterSourceBlock (o : Opts) (obs : String → ℚ) : List Step :=
  Step.segments :: Step.readSkymap :: optStep o.doCatalog Step.catalog ++
    optStep o.doPlots Step.plotSkymap ++ obsBlock o obs

/-- Driver lines 494-503: skymap source selection.  Event lookup takes
precedence over footprint generation, which takes precedence over a
user-supplied skymap (whose branch is a `pass`); with none enabled the
program exits. -/
def sourceBlock (o : Opts) (obs : String → ℚ) : List Step :=
  if o.doEvent then Step.eventLoad :: afterSourceBlock o obs
  else if o.doFootprint then Step.footprintGen :: afterSourceBlock o obs
  else if o.doSkymap then afterSourceBlock o obs
  else [Step.exitNoSource]

/-- The whole driver main script (lines 484-696) as an ordered step trace:
params construction, the filters/exposuretimes length check, then the
source, map, observability, tiling, scheduling and efficiency blocks. -/
def runMain (o : Opts) (obs : String → ℚ) : List Step :=
  Step.paramsStruct ::
    (if o.filters.length ≠ o.exposuretimes.length then [Step.exitFilters]
     else sourceBlock o obs)

/-! ### Time allocator (spec §4.2) -/

/-- Modelled from the spec: `gwemopt.coverage.timeallocation` is not part of
the driver file; the spec describes the conversion of a normalized tile
weight into an integer exposure count as
`exposure_count = round(w_normalized × budget / exposure_duration)`, with a
floor of at least one exposure for any tile whose normalized weight exceeds
the minimum-significance threshold. -/
def exposureCount (sigThresh wNorm budget duration : ℚ) : ℤ :=
  if sigThresh < wNorm then max (round (wNorm * budget / duration)) 1
  else round (wNorm * budget / duration)

/-- Modelled from the spec: the total exposure time allocated to a
telescope's tiles, given the list of normalized tile weights, the time
budget, and the (common) per-exposure duration. -/
def totalAllocated (sigThresh : ℚ) (ws : List ℚ) (budget duration : ℚ) : ℚ :=
  (ws.map (fun w => (exposureCount sigThresh w budget duration : ℚ) * duration)).sum

/-! ### Greedy scheduler (spec §4.3) -/

/-- A visibility interval `[lo, hi)`. -/
structure Ivl : Type where
  lo : ℚ
  hi : ℚ
  deriving DecidableEq, Repr

/-- A tile as the scheduler sees it: identifier, center coordinates,
per-exposure duration, and its visibility windows for the telescope. -/
structure SchedTile : Type where
  tid : ℕ
  ra : ℚ
  dec : ℚ
  expDur : ℚ
  windows : List Ivl
  deriving DecidableEq, Repr

/-- A scheduled exposure for one telescope. -/
structure ScheduleEntry : Type where
  telescope_id : String
  tile_id : ℕ
  start_time : ℚ
  end_time : ℚ
  filt : String
  deriving DecidableEq, Repr

/-- Modelled from the spec: the earliest start not before `t` at which an
exposure of duration `d` fits inside one of the visibility windows
(spec §4.3 step 3: a candidate that does not fit its current interval is
deferred to its next interval, or missed when none is left). -/
def findWindow (t d : ℚ) : List Ivl → Option ℚ
  | [] => none
  | w :: rest =>
      if max t w.lo + d ≤ w.hi then some (max t w.lo) else findWindow t d rest

/-- Modelled from the spec: the greedy slew-aware scheduling loop of
spec §4.3 for one telescope.  The candidate queue is already ordered by the
selection policy; each queue element is one pending exposure.  At each step
the head candidate is started at the earliest time fitting one of its
visibility windows after the slew from the current position, emitting a
`ScheduleEntry` and advancing the clock; candidates that fit no window are
missed and skipped. -/
def greedySchedule (slew : ℚ × ℚ → ℚ × ℚ → ℚ) (telId filt : String) :
    ℚ → ℚ × ℚ → List SchedTile → List ScheduleEntry
  | _, _, [] => []
  | t, pos, c :: rest =>
      match findWindow (t + slew pos (c.ra, c.dec)) c.expDur c.windows with
      | some s =>
          ⟨telId, c.tid, s, s + c.expDur, filt⟩ ::
            greedySchedule slew telId filt (s + c.expDur) (c.ra, c.dec) rest
      | none => greedySchedule slew telId filt t pos rest

/-! ### Fixed-tessellation tiler (spec §4.1) -/

/-- A cell of the probability grid. -/
structure GridCell : Type where
  cid : ℕ
  ra : ℚ
  dec : ℚ
  solid_angle : ℚ
  probability : ℚ
  deriving DecidableEq, Repr

/-- A precomputed tessellation center. -/
structure TessCenter : Type where
  tid : ℕ
  ra : ℚ
  dec : ℚ
  deriving DecidableEq, Repr

/-- A tile produced by the fixed-tessellation strategy. -/
structure FTTile : Type where
  tid : ℕ
  center_ra : ℚ
  center_dec : ℚ
  probability_mass : ℚ
  deriving DecidableEq, Repr

/-- Modelled from the spec: multi-resolution set membership of a grid cell
in a tile footprint of radius `fov` about a center (exact membership test,
not sampling). -/
def inFootprint (fov cra cdec : ℚ) (cell : GridCell) : Bool :=
  decide ((cell.ra - cra) ^ 2 + (cell.dec - cdec) ^ 2 ≤ fov ^ 2)

/-- Modelled from the spec: the fixed-tessellation (exact-coverage) tiling
strategy: given precomputed tile centers, each tile's probability mass is
the exact sum of the probabilities of the grid cells inside its footprint. -/
def fixedTessellation (fov : ℚ) (centers : List TessCenter) (grid : List GridCell) :
    List FTTile :=
  centers.map (fun c =>
    ⟨c.tid, c.ra, c.dec,
      ((grid.filter (inFootprint fov c.ra c.dec)).map (fun cell => cell.probability)).sum⟩)

/-! ### Hierarchical-tiling post-processing (driver lines 582-596) -/

/-- A tile of a per-telescope `tiles_struct`: dictionary key (index) and
center coordinates, in dictionary iteration order. -/
structure HierTile : Type where
  idx : ℕ
  ra : ℚ
  dec : ℚ
  deriving DecidableEq, Repr

/-- Driver lines 587-595: the per-telescope tessellation rebuild, starting
from an empty array and appending one `[index, ra, dec]` row per tile. -/
def buildTess (ts : List HierTile) : List (ℕ × ℚ × ℚ) :=
  ts.foldl (fun acc e => acc ++ [(e.idx, e.ra, e.dec)]) []

/-- Driver lines 585-596: after hierarchical tiling, `params["Ntiles"]` is
reset to an empty list and then, telescope by telescope, the tessellation
is rebuilt from the generated tile centers and the telescope's tile count
is appended to `Ntiles`.  `tess0` is the tessellation table before the
loop (the file-loaded one). -/
def hierarchicalPost (telescopes : List String)
    (tess0 : String → List (ℕ × ℚ × ℚ)) (tileStructs : String → List HierTile) :
    (String → List (ℕ × ℚ × ℚ)) × List ℕ :=
  telescopes.foldl
    (fun st tel =>
      (Function.update st.1 tel (buildTess (tileStructs tel)),
       st.2 ++ [(tileStructs tel).length]))
    (tess0, [])

/-! ### Single-exposure configuration update (driver lines 279-295) -/

/-- The per-telescope configuration record, restricted to the fields the
single-exposure branch of `params_struct` reads or writes, plus
representative unrelated fields. -/
structure TelConfig : Type where
  telescope : String
  magnitude : ℝ
  exposuretime : ℝ
  latitude : ℚ
  longitude : ℚ
  elevation : ℚ
  FOV : ℚ
  filt : String
  magnitude_orig : Option ℝ
  exposuretime_orig : Option ℝ

/-- Driver lines 279-295: with `--doSingleExposure`, the telescope's
exposure time is replaced by the first entry of the exposure-times list,
the limiting magnitude is shifted by
`-2.5·log10(sqrt(exposuretime_old / exposuretime_new))`, and the original
magnitude and exposure time are stored in the `_orig` fields. -/
noncomputable def singleExposureUpdate (cfg : TelConfig) (e0 : ℝ) : TelConfig :=
  { cfg with
    magnitude_orig := some cfg.magnitude
    exposuretime_orig := some cfg.exposuretime
    magnitude :=
      cfg.magnitude + -2.5 * Real.logb 10 (Real.sqrt (cfg.exposuretime / e0))
    exposuretime := e0 }

/-- Driver lines 279-295 in context: the single-exposure branch runs only
when the mode is enabled, taking element 0 of the exposure-times list. -/
noncomputable def applySingleExposure (doSingleExposure : Bool)
    (exposuretimes : List ℝ) (cfg : TelConfig) : TelConfig :=
  if doSingleExposure then
    match exposuretimes with
    | e0 :: _ => singleExposureUpdate cfg e0
    | [] => cfg
  else cfg

/-! ### Driver trace lemmas -/

@[simp]
lemma mem_optStep {b : Bool} {s a : Step} : a ∈ optStep b s ↔ (b = true ∧ a = s) := by
  cases b <;> simp [optStep]

lemma strategyFor_isStrategy {t : String} {s : Step} (h : strategyFor t = some s) :
    isStrategy s = true := by
  unfold strategyFor at h
  split_ifs at h <;> (try simp only [Option.some.injEq] at h) <;> (try subst h) <;>
    simp_all [isStrategy]

lemma mem_schedBlock {s : Step} {o : Opts} (hs : s ∈ schedBlock o) :
    s ∈ [Step.timeallocation, Step.exitScheduleNoTiles, Step.readCoverage, Step.summary,
         Step.plotCoverage, Step.efficiency, Step.exitEfficiency] := by
  unfold schedBlock summaryBlock effBlock at hs
  split_ifs at hs <;> simp_all <;> tauto

lemma mem_tilesBlock {s : Step} {o : Opts} (hs : s ∈ tilesBlock o) :
    s = Step.exitTilesType ∨ s = Step.plotTiles ∨ isStrategy s = true ∨ s ∈ schedBlock o := by
  unfold tilesBlock at hs
  split_ifs at hs
  · rcases h : strategyFor o.tilesType with _ | st <;> rw [h] at hs
    · simp_all
    · simp only [List.mem_cons, List.mem_append, mem_optStep] at hs
      rcases hs with rfl | ⟨_, rfl⟩ | hs
      · exact Or.inr (Or.inr (Or.inl (strategyFor_isStrategy h)))
      · simp
      · exact Or.inr (Or.inr (Or.inr hs))
  · exact Or.inr (Or.inr (Or.inr hs))

lemma mem_samplesSplitBlock {s : Step} {o : Opts} (hs : s ∈ samplesSplitBlock o) :
    s = Step.samples ∨ s = Step.split ∨ s ∈ tilesBlock o := by
  unfold samplesSplitBlock at hs
  simp only [List.mem_append, mem_optStep] at hs
  tauto

lemma mem_obsBlock {s : Step} {o : Opts} {obs : String → ℚ} (hs : s ∈ obsBlock o obs) :
    s ∈ [Step.observability, Step.plotObservability, Step.writeEfficiencyTrue,
         Step.exitObservability] ∨ s ∈ samplesSplitBlock o := by
  unfold obsBlock obsExitTrace at hs
  split_ifs at hs <;> simp_all <;> tauto

lemma mem_afterSourceBlock {s : Step} {o : Opts} {obs : String → ℚ}
    (hs : s ∈ afterSourceBlock o obs) :
    s ∈ [Step.segments, Step.readSkymap, Step.catalog, Step.plotSkymap] ∨
      s ∈ obsBlock o obs := by
  unfold afterSourceBlock at hs
  simp only [List.mem_cons, List.mem_append, mem_optStep, List.not_mem_nil] at hs ⊢
  tauto

lemma mem_sourceBlock {s : Step} {o : Opts} {obs : String → ℚ}
    (hs : s ∈ sourceBlock o obs) :
    s ∈ [Step.eventLoad, Step.footprintGen, Step.exitNoSource] ∨
      s ∈ afterSourceBlock o obs := by
  unfold sourceBlock at hs
  split_ifs at hs <;> simp_all <;> tauto

lemma mem_runMain {s : Step} {o : Opts} {obs : String → ℚ} (hs : s ∈ runMain o obs) :
    s ∈ [Step.paramsStruct, Step.exitFilters] ∨ s ∈ sourceBlock o obs := by
  unfold runMain at hs
  split_ifs at hs <;> (simp_all; try tauto)

lemma timealloc_mem_schedBlock {o : Opts} (h : Step.timeallocation ∈ schedBlock o) :
    o.doSchedule = true ∧ o.doTiles = true := by
  unfold schedBlock summaryBlock effBlock at h
  split_ifs at h <;> simp_all

lemma readCoverage_mem_schedBlock {o : Opts} (h : Step.readCoverage ∈ schedBlock o) :
    o.doSchedule = false ∧ o.doCoverage = true := by
  unfold schedBlock summaryBlock effBlock at h
  split_ifs at h <;> simp_all

lemma summary_mem_schedBlock {o : Opts} (h : Step.summary ∈ schedBlock o) :
    (o.doSchedule = true ∧ o.doTiles = true) ∨
      (o.doSchedule = false ∧ o.doCoverage = true) := by
  unfold schedBlock summaryBlock effBlock at h
  split_ifs at h <;> simp_all

lemma mem_afterSourceBlock_closure {s : Step} {o : Opts} {obs : String → ℚ}
    (hs : s ∈ afterSourceBlock o obs) :
    s ∈ [Step.segments, Step.readSkymap, Step.catalog, Step.plotSkymap, Step.observability,
         Step.plotObservability, Step.writeEfficiencyTrue, Step.exitObservability,
         Step.samples, Step.split, Step.exitTilesType, Step.plotTiles] ∨
      isStrategy s = true ∨ s ∈ schedBlock o := by
  rcases mem_afterSourceBlock hs with hfix | hs
  · left; simp at hfix ⊢; tauto
  · rcases mem_obsBlock hs with hfix | hs
    · left; simp at hfix ⊢; tauto
    · rcases mem_samplesSplitBlock hs with rfl | rfl | hs
      · left; simp
      · left; simp
      · rcases mem_tilesBlock hs with rfl | rfl | hstr | hs
        · left; simp
        · left; simp
        · exact Or.inr (Or.inl hstr)
        · exact Or.inr (Or.inr hs)

lemma mem_runMain_closure {s : Step} {o : Opts} {obs : String → ℚ}
    (hs : s ∈ runMain o obs) :
    s ∈ [Step.paramsStruct, Step.exitFilters, Step.eventLoad, Step.footprintGen,
         Step.exitNoSource, Step.segments, Step.readSkymap, Step.catalog, Step.plotSkymap,
         Step.observability, Step.plotObservability, Step.writeEfficiencyTrue,
         Step.exitObservability, Step.samples, Step.split, Step.exitTilesType,
         Step.plotTiles] ∨
      isStrategy s = true ∨ s ∈ schedBlock o := by
  rcases mem_runMain hs with hfix | hs
  · left; simp at hfix ⊢; tauto
  · rcases mem_sourceBlock hs with hfix | hs
    · left; simp at hfix ⊢; tauto
    · rcases mem_afterSourceBlock_closure hs with hfix | hstr | hsched
      · left; simp at hfix ⊢; tauto
      · exact Or.inr (Or.inl hstr)
      · exact Or.inr (Or.inr hsched)

lemma eventLoad_not_mem_after {o : Opts} {obs : String → ℚ} :
    Step.eventLoad ∉ afterSourceBlock o obs := by
  intro h
  rcases mem_afterSourceBlock_closure h with hfix | hstr | hsched
  · simp at hfix
  · simp [isStrategy] at hstr
  · have := mem_schedBlock hsched; simp at this

lemma footprintGen_not_mem_after {o : Opts} {obs : String → ℚ} :
    Step.footprintGen ∉ afterSourceBlock o obs := by
  intro h
  rcases mem_afterSourceBlock_closure h with hfix | hstr | hsched
  · simp at hfix
  · simp [isStrategy] at hstr
  · have := mem_schedBlock hsched; simp at this

/-! ### Claim theorems for the driver control flow -/

/-- C3: for every input in which the number of filters differs from the
number of exposure times, the run is rejected right after params
construction: the trace is exactly the length-check exit, so no tiling
strategy, no time allocation and no coverage reading executes. -/
theorem filters_length_mismatch_rejects_run (o : Opts) (obs : String → ℚ)
    (h : o.filters.length ≠ o.exposuretimes.length) :
    runMain o obs = [Step.paramsStruct, Step.exitFilters] ∧
    (∀ s, isStrategy s = true → s ∉ runMain o obs) ∧
    Step.timeallocation ∉ runMain o obs ∧
    Step.readCoverage ∉ runMain o obs := by
  have ht : runMain o obs = [Step.paramsStruct, Step.exitFilters] := by
    simp [runMain, h]
  refine ⟨ht, ?_, ?_, ?_⟩ <;> rw [ht]
  · intro s hsS
    cases s <;> simp_all [isStrategy]
  · simp
  · simp

/-- Witness for C3 at a concrete option set with two filters and one
exposure time. -/
def optsC3 : Opts :=
  { doEvent := true, doFootprint := false, doSkymap := false, doSamples := false,
    doCoverage := false, doSchedule := true, doPlots := false, doTiles := true,
    doObservability := false, doObservabilityExit := false, doTrueLocation := false,
    doCatalog := false, doSplit := false, doEfficiency := false,
    tilesType := "moc", filters := ["r", "g"], exposuretimes := [30],
    telescopes := ["ATLAS"], observability_thresh := 1/20 }

/-- The observability result used by concrete driver runs that never read
it. -/
def obs0 : String → ℚ := fun _ => 0

theorem filters_length_mismatch_rejects_run_witness :
    optsC3.filters.length ≠ optsC3.exposuretimes.length ∧
    runMain optsC3 obs0 = [Step.paramsStruct, Step.exitFilters] ∧
    Step.timeallocation ∉ runMain optsC3 obs0 :=
  ⟨by decide,
   (filters_length_mismatch_rejects_run optsC3 obs0 (by decide)).1,
   (filters_length_mismatch_rejects_run optsC3 obs0 (by decide)).2.2.1⟩

/-- C8: whenever scheduling is requested (`--doSchedule`) but tiling is not
enabled (`--doTiles` absent), no coverage plan is computed: the time
allocation step, the coverage-file reading step and the coverage summary
never appear in the run's trace, and (when the run reaches the scheduling
block at all) the run ends at the schedule-requires-tiles exit. -/
theorem schedule_without_tiles_computes_no_coverage (o : Opts) (obs : String → ℚ)
    (h1 : o.doSchedule = true) (h2 : o.doTiles = false) :
    Step.timeallocation ∉ runMain o obs ∧
    Step.readCoverage ∉ runMain o obs ∧
    Step.summary ∉ runMain o obs ∧
    (o.filters.length = o.exposuretimes.length →
      (o.doEvent = true ∨ o.doFootprint = true ∨ o.doSkymap = true) →
      (o.doObservability = true → o.doObservabilityExit = true →
        ∀ t ∈ o.telescopes, ¬ obs t < o.observability_thresh) →
      Step.exitScheduleNoTiles ∈ runMain o obs) := by
  refine ⟨?_, ?_, ?_, ?_⟩
  · intro hmem
    rcases mem_runMain_closure hmem with hfix | hstr | hsched
    · simp at hfix
    · simp [isStrategy] at hstr
    · exact absurd (timealloc_mem_schedBlock hsched).2 (by simp [h2])
  · intro hmem
    rcases mem_runMain_closure hmem with hfix | hstr | hsched
    · simp at hfix
    · simp [isStrategy] at hstr
    · exact absurd (readCoverage_mem_schedBlock hsched).1 (by simp [h1])
  · intro hmem
    rcases mem_runMain_closure hmem with hfix | hstr | hsched
    · simp at hfix
    · simp [isStrategy] at hstr
    · rcases summary_mem_schedBlock hsched with ⟨_, ht⟩ | ⟨hns, _⟩
      · simp [h2] at ht
      · simp [h1] at hns
  · intro hf hsrc hobs
    have hsched : schedBlock o = [Step.exitScheduleNoTiles] := by
      simp [schedBlock, h1, h2]
    have htiles : tilesBlock o = schedBlock o := by
      simp [tilesBlock, h2]
    have hm3 : Step.exitScheduleNoTiles ∈ samplesSplitBlock o := by
      simp [samplesSplitBlock, htiles, hsched]
    have hm2 : Step.exitScheduleNoTiles ∈ obsBlock o obs := by
      unfold obsBlock
      by_cases hO : o.doObservability = true
      · have hcond : (o.doObservabilityExit &&
            o.telescopes.any fun t => decide (obs t < o.observability_thresh)) = false := by
          by_cases hE : o.doObservabilityExit = true
          · have hall := hobs hO hE
            simp only [hE, Bool.true_and, List.any_eq_false, decide_eq_true_eq]
            exact hall
          · simp only [Bool.not_eq_true] at hE
            simp [hE]
        simp [hO, hcond, hm3]
      · simp only [Bool.not_eq_true] at hO
        simp [hO, hm3]
    have hm1 : Step.exitScheduleNoTiles ∈ afterSourceBlock o obs := by
      simp [afterSourceBlock, hm2]
    have hm0 : Step.exitScheduleNoTiles ∈ sourceBlock o obs := by
      unfold sourceBlock
      split_ifs with hA hB hC
      · simp [hm1]
      · simp [hm1]
      · simp [hm1]
      · rcases hsrc with h | h | h <;> simp_all
    simp [runMain, hf, hm0]

/-- Witness for C8: scheduling requested, tiling disabled, user skymap. -/
def optsC8 : Opts :=
  { doEvent := false, doFootprint := false, doSkymap := true, doSamples := false,
    doCoverage := false, doSchedule := true, doPlots := false, doTiles := false,
    doObservability := false, doObservabilityExit := false, doTrueLocation := false,
    doCatalog := false, doSplit := false, doEfficiency := false,
    tilesType := "moc", filters := ["r"], exposuretimes := [30],
    telescopes := ["ATLAS"], observability_thresh := 1/20 }

theorem schedule_without_tiles_computes_no_coverage_witness :
    optsC8.doSchedule = true ∧ optsC8.doTiles = false ∧
    Step.timeallocation ∉ runMain optsC8 obs0 ∧
    Step.summary ∉ runMain optsC8 obs0 :=
  ⟨rfl, rfl,
   (schedule_without_tiles_computes_no_coverage optsC8 obs0 rfl rfl).1,
   (schedule_without_tiles_computes_no_coverage optsC8 obs0 rfl rfl).2.2.1⟩

/-- C9: the skymap source is chosen by fixed precedence (event lookup over
footprint generation over user-supplied skymap), and when none of the
three sources is enabled the program exits before computing telescope
segments or reading any skymap. -/
theorem skymap_source_precedence (o : Opts) (obs : String → ℚ)
    (hf : o.filters.length = o.exposuretimes.length) :
    (o.doEvent = true →
      Step.eventLoad ∈ runMain o obs ∧ Step.footprintGen ∉ runMain o obs) ∧
    (o.doEvent = false → o.doFootprint = true →
      Step.footprintGen ∈ runMain o obs ∧ Step.eventLoad ∉ runMain o obs) ∧
    (o.doEvent = false → o.doFootprint = false → o.doSkymap = true →
      Step.eventLoad ∉ runMain o obs ∧ Step.footprintGen ∉ runMain o obs ∧
      Step.segments ∈ runMain o obs) ∧
    (o.doEvent = false → o.doFootprint = false → o.doSkymap = false →
      Step.exitNoSource ∈ runMain o obs ∧ Step.segments ∉ runMain o obs ∧
      Step.readSkymap ∉ runMain o obs) := by
  have hrm : runMain o obs = Step.paramsStruct :: sourceBlock o obs := by
    simp [runMain, hf]
  refine ⟨?_, ?_, ?_, ?_⟩
  · intro hE
    constructor
    · simp [hrm, sourceBlock, hE]
    · intro hmem
      rw [hrm] at hmem
      simp only [List.mem_cons] at hmem
      rcases hmem with hmem | hmem
      · simp at hmem
      · unfold sourceBlock at hmem
        rw [if_pos hE] at hmem
        simp only [List.mem_cons] at hmem
        rcases hmem with hmem | hmem
        · simp at hmem
        · exact footprintGen_not_mem_after hmem
  · intro hE hF
    constructor
    · simp [hrm, sourceBlock, hE, hF]
    · intro hmem
      rw [hrm] at hmem
      simp only [List.mem_cons] at hmem
      rcases hmem with hmem | hmem
      · simp at hmem
      · unfold sourceBlock at hmem
        rw [if_neg (by simp [hE]), if_pos hF] at hmem
        simp only [List.mem_cons] at hmem
        rcases hmem with hmem | hmem
        · simp at hmem
        · exact eventLoad_not_mem_after hmem
  · intro hE hF hS
    have hsb : sourceBlock o obs = afterSourceBlock o obs := by
      simp [sourceBlock, hE, hF, hS]
    refine ⟨?_, ?_, ?_⟩
    · intro hmem
      rw [hrm] at hmem
      simp only [List.mem_cons] at hmem
      rcases hmem with hmem | hmem
      · simp at hmem
      · rw [hsb] at hmem
        exact eventLoad_not_mem_after hmem
    · intro hmem
      rw [hrm] at hmem
      simp only [List.mem_cons] at hmem
      rcases hmem with hmem | hmem
      · simp at hmem
      · rw [hsb] at hmem
        exact footprintGen_not_mem_after hmem
    · rw [hrm, hsb]
      simp [afterSourceBlock]
  · intro hE hF hS
    have hsb : sourceBlock o obs = [Step.exitNoSource] := by
      simp [sourceBlock, hE, hF, hS]
    rw [hrm, hsb]
    simp

/-- Witness for C9: no source enabled, matched filter/exposure lengths. -/
def optsC9 : Opts :=
  { doEvent := false, doFootprint := false, doSkymap := false, doSamples := false,
    doCoverage := false, doSchedule := false, doPlots := false, doTiles := false,
    doObservability := false, doObservabilityExit := false, doTrueLocation := false,
    doCatalog := false, doSplit := false, doEfficiency := false,
    tilesType := "moc", filters := ["r"], exposuretimes := [30],
    telescopes := ["ATLAS"], observability_thresh := 1/20 }

theorem skymap_source_precedence_witness :
    optsC9.filters.length = optsC9.exposuretimes.length ∧
    Step.exitNoSource ∈ runMain optsC9 obs0 ∧
    Step.segments ∉ runMain optsC9 obs0 :=
  ⟨by decide,
   ((skymap_source_precedence optsC9 obs0 (by decide)).2.2.2 rfl rfl rfl).1,
   ((skymap_source_precedence optsC9 obs0 (by decide)).2.2.2 rfl rfl rfl).2.1⟩

lemma mem_obsBlock_exit {s : Step} {o : Opts} {obs : String → ℚ}
    (hO : o.doObservability = true) (hE : o.doObservabilityExit = true)
    (hany : (o.telescopes.any fun t => decide (obs t < o.observability_thresh)) = true)
    (hs : s ∈ obsBlock o obs) :
    s ∈ [Step.observability, Step.plotObservability, Step.writeEfficiencyTrue,
         Step.exitObservability] := by
  unfold obsBlock obsExitTrace at hs
  simp only [hO, hE, hany, Bool.true_and, if_true, List.mem_cons, List.mem_append,
    mem_optStep, List.mem_singleton] at hs
  simp only [List.mem_cons, List.mem_singleton, List.not_mem_nil]
  tauto

/-- C4 (amended): with observability checking and early exit enabled, if any
telescope's cumulative visible probability is below the threshold, the whole
program exits at the observability check: no tiling strategy, no time
allocation and no coverage summary runs for any telescope. -/
theorem observability_below_threshold_aborts_whole_run (o : Opts) (obs : String → ℚ)
    (hO : o.doObservability = true) (hE : o.doObservabilityExit = true)
    (hlow : ∃ t ∈ o.telescopes, obs t < o.observability_thresh)
    (hf : o.filters.length = o.exposuretimes.length)
    (hsrc : o.doEvent = true ∨ o.doFootprint = true ∨ o.doSkymap = true) :
    Step.exitObservability ∈ runMain o obs ∧
    Step.timeallocation ∉ runMain o obs ∧
    Step.summary ∉ runMain o obs ∧
    (∀ s, isStrategy s = true → s ∉ runMain o obs) := by
  have hany : (o.telescopes.any fun t => decide (obs t < o.observability_thresh)) = true := by
    rcases hlow with ⟨t, ht, hlt⟩
    simp only [List.any_eq_true, decide_eq_true_eq]
    exact ⟨t, ht, hlt⟩
  have hob : Step.exitObservability ∈ obsBlock o obs := by
    simp [obsBlock, obsExitTrace, hO, hE, hany]
  have hafter : Step.exitObservability ∈ afterSourceBlock o obs := by
    simp [afterSourceBlock, hob]
  have hsb : Step.exitObservability ∈ sourceBlock o obs := by
    unfold sourceBlock
    split_ifs with hA hB hC
    · simp [hafter]
    · simp [hafter]
    · simp [hafter]
    · rcases hsrc with h | h | h <;> simp_all
  refine ⟨by simp [runMain, hf, hsb], ?_, ?_, ?_⟩
  · intro hmem
    rcases mem_runMain hmem with hfix | hmem
    · simp at hfix
    · rcases mem_sourceBlock hmem with hfix | hmem
      · simp at hfix
      · rcases mem_afterSourceBlock hmem with hfix | hmem
        · simp at hfix
        · have := mem_obsBlock_exit hO hE hany hmem
          simp at this
  · intro hmem
    rcases mem_runMain hmem with hfix | hmem
    · simp at hfix
    · rcases mem_sourceBlock hmem with hfix | hmem
      · simp at hfix
      · rcases mem_afterSourceBlock hmem with hfix | hmem
        · simp at hfix
        · have := mem_obsBlock_exit hO hE hany hmem
          simp at this
  · intro s hstr hmem
    rcases mem_runMain hmem with hfix | hmem
    · cases s <;> simp_all [isStrategy]
    · rcases mem_sourceBlock hmem with hfix | hmem
      · cases s <;> simp_all [isStrategy]
      · rcases mem_afterSourceBlock hmem with hfix | hmem
        · cases s <;> simp_all [isStrategy]
        · have := mem_obsBlock_exit hO hE hany hmem
          cases s <;> simp_all [isStrategy]

/-- Counterexample input for C4: two telescopes, the first below, the second
above the observability threshold, with tiling and scheduling requested. -/
def optsC4 : Opts :=
  { doEvent := true, doFootprint := false, doSkymap := false, doSamples := false,
    doCoverage := false, doSchedule := true, doPlots := false, doTiles := true,
    doObservability := true, doObservabilityExit := true, doTrueLocation := false,
    doCatalog := false, doSplit := false, doEfficiency := false,
    tilesType := "moc", filters := ["r"], exposuretimes := [30],
    telescopes := ["scopeA", "scopeB"], observability_thresh := 1/20 }

/-- The observability probabilities of the C4 counterexample run. -/
def obsC4 : String → ℚ := fun t => if t = "scopeA" then 0 else 1

/-- C4 counterexample: on `optsC4`, where only `scopeA` is below threshold
and `scopeB` is fine and scheduling was requested, the program exits at the
observability check and nothing proceeds for `scopeB` either — refuting the
claim that only the offending telescope is excluded while the remaining
telescopes proceed: the full trace ends at the observability exit, with no
tiling strategy and no time allocation for any telescope. -/
theorem observability_exclusion_counterexample :
    optsC4.observability_thresh ≤ obsC4 "scopeB" ∧
    optsC4.doSchedule = true ∧ optsC4.doTiles = true ∧
    runMain optsC4 obsC4 =
      [Step.paramsStruct, Step.eventLoad, Step.segments, Step.readSkymap,
       Step.observability, Step.exitObservability] ∧
    Step.timeallocation ∉ runMain optsC4 obsC4 ∧
    Step.tilingMoc ∉ runMain optsC4 obsC4 := by
  have htr : runMain optsC4 obsC4 =
      [Step.paramsStruct, Step.eventLoad, Step.segments, Step.readSkymap,
       Step.observability, Step.exitObservability] := by
    simp [runMain, sourceBlock, afterSourceBlock, obsBlock, obsExitTrace, optStep,
      optsC4, obsC4]
  refine ⟨?_, rfl, rfl, htr, ?_, ?_⟩
  · simp only [obsC4, optsC4]
    rw [if_neg (by decide)]
    norm_num
  · rw [htr]; decide
  · rw [htr]; decide

/-- Witness for the amended C4 theorem at the concrete counterexample run. -/
theorem observability_below_threshold_aborts_whole_run_witness :
    optsC4.doObservability = true ∧
    (∃ t ∈ optsC4.telescopes, obsC4 t < optsC4.observability_thresh) ∧
    Step.exitObservability ∈ runMain optsC4 obsC4 ∧
    Step.summary ∉ runMain optsC4 obsC4 := by
  have hthm := observability_below_threshold_aborts_whole_run optsC4 obsC4 rfl rfl
    ⟨"scopeA", by simp [optsC4], by norm_num [obsC4, optsC4]⟩ (by decide) (Or.inl rfl)
  exact ⟨rfl, ⟨"scopeA", by simp [optsC4], by norm_num [obsC4, optsC4]⟩, hthm.1, hthm.2.2.1⟩

/-! ### Tiling strategy dispatch (C5) -/

lemma filter_isStrategy_optStep {b : Bool} {s : Step} (h : isStrategy s = false) :
    (optStep b s).filter isStrategy = [] := by
  cases b <;> simp [optStep, h]

lemma filter_isStrategy_cons_false (s : Step) {l : List Step} (h : isStrategy s = false) :
    (s :: l).filter isStrategy = l.filter isStrategy := by
  simp [List.filter_cons, h]

lemma filter_isStrategy_schedBlock (o : Opts) :
    (schedBlock o).filter isStrategy = [] := by
  rw [List.filter_eq_nil_iff]
  intro a ha hstr
  have := mem_schedBlock ha
  simp only [List.mem_cons, List.not_mem_nil, or_false] at this
  rcases this with rfl | rfl | rfl | rfl | rfl | rfl | rfl <;> simp [isStrategy] at hstr

lemma filter_isStrategy_tilesBlock (o : Opts) :
    (tilesBlock o).filter isStrategy =
      if o.doTiles then (strategyFor o.tilesType).toList else [] := by
  unfold tilesBlock
  split_ifs with hT
  · rcases h : strategyFor o.tilesType with _ | st
    · simp [isStrategy]
    · rw [List.filter_cons_of_pos (strategyFor_isStrategy h), List.filter_append,
        filter_isStrategy_optStep (by rfl), filter_isStrategy_schedBlock]
      simp
  · exact filter_isStrategy_schedBlock o

lemma filter_isStrategy_samplesSplitBlock (o : Opts) :
    (samplesSplitBlock o).filter isStrategy = (tilesBlock o).filter isStrategy := by
  unfold samplesSplitBlock
  rw [List.filter_append, List.filter_append,
    filter_isStrategy_optStep (by rfl), filter_isStrategy_optStep (by rfl)]
  simp

lemma filter_isStrategy_obsBlock (o : Opts) (obs : String → ℚ)
    (hpass : o.doObservability = true → o.doObservabilityExit = true →
      ∀ t ∈ o.telescopes, ¬ obs t < o.observability_thresh) :
    (obsBlock o obs).filter isStrategy = (tilesBlock o).filter isStrategy := by
  unfold obsBlock
  by_cases hO : o.doObservability = true
  · have hcond : (o.doObservabilityExit &&
        o.telescopes.any fun t => decide (obs t < o.observability_thresh)) = false := by
      by_cases hE : o.doObservabilityExit = true
      · have hall := hpass hO hE
        simp only [hE, Bool.true_and, List.any_eq_false, decide_eq_true_eq]
        exact hall
      · simp only [Bool.not_eq_true] at hE
        simp [hE]
    rw [if_pos hO, hcond]
    simp only [Bool.false_eq_true, if_false]
    rw [List.filter_append, filter_isStrategy_cons_false Step.observability rfl,
      filter_isStrategy_optStep (by rfl), filter_isStrategy_samplesSplitBlock]
    simp
  · simp only [Bool.not_eq_true] at hO
    rw [if_neg (by simp [hO])]
    exact filter_isStrategy_samplesSplitBlock o

lemma filter_isStrategy_runMain (o : Opts) (obs : String → ℚ)
    (hf : o.filters.length = o.exposuretimes.length)
    (hsrc : o.doEvent = true ∨ o.doFootprint = true ∨ o.doSkymap = true)
    (hpass : o.doObservability = true → o.doObservabilityExit = true →
      ∀ t ∈ o.telescopes, ¬ obs t < o.observability_thresh) :
    (runMain o obs).filter isStrategy = (tilesBlock o).filter isStrategy := by
  have hafter : (afterSourceBlock o obs).filter isStrategy =
      (tilesBlock o).filter isStrategy := by
    unfold afterSourceBlock
    rw [List.filter_append, List.filter_append,
      filter_isStrategy_cons_false Step.segments rfl,
      filter_isStrategy_cons_false Step.readSkymap rfl,
      filter_isStrategy_optStep (by rfl), filter_isStrategy_optStep (by rfl),
      filter_isStrategy_obsBlock o obs hpass]
    simp
  have hrm : runMain o obs = Step.paramsStruct :: sourceBlock o obs := by
    simp [runMain, hf]
  rw [hrm, filter_isStrategy_cons_false Step.paramsStruct rfl]
  unfold sourceBlock
  split_ifs with hA hB hC
  · rw [filter_isStrategy_cons_false Step.eventLoad rfl, hafter]
  · rw [filter_isStrategy_cons_false Step.footprintGen rfl, hafter]
  · exact hafter
  · rcases hsrc with h | h | h <;> simp_all

/-- C5: with tiling enabled and the run reaching the tiling block, exactly
one of the five tiling strategies executes, selected by the `tilesType`
tag; any other tag makes the program exit with no tiling strategy executed
and no coverage computed. -/
theorem tiles_type_selects_exactly_one_strategy (o : Opts) (obs : String → ℚ)
    (hT : o.doTiles = true)
    (hf : o.filters.length = o.exposuretimes.length)
    (hsrc : o.doEvent = true ∨ o.doFootprint = true ∨ o.doSkymap = true)
    (hpass : o.doObservability = true → o.doObservabilityExit = true →
      ∀ t ∈ o.telescopes, ¬ obs t < o.observability_thresh) :
    ((o.tilesType = "moc" → (runMain o obs).filter isStrategy = [Step.tilingMoc]) ∧
     (o.tilesType = "ranked" → (runMain o obs).filter isStrategy = [Step.tilingRanked]) ∧
     (o.tilesType = "hierarchical" →
       (runMain o obs).filter isStrategy = [Step.tilingHierarchical]) ∧
     (o.tilesType = "greedy" → (runMain o obs).filter isStrategy = [Step.tilingGreedy]) ∧
     (o.tilesType = "galaxy" → (runMain o obs).filter isStrategy = [Step.tilingGalaxy])) ∧
    (o.tilesType ∉ (["moc", "ranked", "hierarchical", "greedy", "galaxy"] : List String) →
      (runMain o obs).filter isStrategy = [] ∧
      Step.exitTilesType ∈ runMain o obs ∧
      Step.timeallocation ∉ runMain o obs ∧
      Step.summary ∉ runMain o obs) := by
  have hfil := filter_isStrategy_runMain o obs hf hsrc hpass
  have htb := filter_isStrategy_tilesBlock o
  constructor
  · refine ⟨?_, ?_, ?_, ?_, ?_⟩ <;> intro hty <;>
      rw [hfil, htb, if_pos hT] <;> simp [strategyFor, hty]
  · intro hnot
    have h1 : o.tilesType ≠ "moc" := fun h => hnot (by simp [h])
    have h2 : o.tilesType ≠ "ranked" := fun h => hnot (by simp [h])
    have h3 : o.tilesType ≠ "hierarchical" := fun h => hnot (by simp [h])
    have h4 : o.tilesType ≠ "greedy" := fun h => hnot (by simp [h])
    have h5 : o.tilesType ≠ "galaxy" := fun h => hnot (by simp [h])
    have hsf : strategyFor o.tilesType = none := by
      simp [strategyFor, h1, h2, h3, h4, h5]
    have htiles : tilesBlock o = [Step.exitTilesType] := by
      simp [tilesBlock, hT, hsf]
    refine ⟨by rw [hfil, htb, if_pos hT, hsf]; rfl, ?_, ?_, ?_⟩
    · have hm3 : Step.exitTilesType ∈ samplesSplitBlock o := by
        simp [samplesSplitBlock, htiles]
      have hm2 : Step.exitTilesType ∈ obsBlock o obs := by
        unfold obsBlock
        by_cases hO : o.doObservability = true
        · have hcond : (o.doObservabilityExit &&
              o.telescopes.any fun t => decide (obs t < o.observability_thresh)) = false := by
            by_cases hE : o.doObservabilityExit = true
            · have hall := hpass hO hE
              simp only [hE, Bool.true_and, List.any_eq_false, decide_eq_true_eq]
              exact hall
            · simp only [Bool.not_eq_true] at hE
              simp [hE]
          simp [hO, hcond, hm3]
        · simp only [Bool.not_eq_true] at hO
          simp [hO, hm3]
      have hm1 : Step.exitTilesType ∈ afterSourceBlock o obs := by
        simp [afterSourceBlock, hm2]
      have hm0 : Step.exitTilesType ∈ sourceBlock o obs := by
        unfold sourceBlock
        split_ifs with hA hB hC
        · simp [hm1]
        · simp [hm1]
        · simp [hm1]
        · rcases hsrc with h | h | h <;> simp_all
      simp [runMain, hf, hm0]
    · intro hmem
      rcases mem_runMain hmem with hfix | hmem
      · simp at hfix
      · rcases mem_sourceBlock hmem with hfix | hmem
        · simp at hfix
        · rcases mem_afterSourceBlock hmem with hfix | hmem
          · simp at hfix
          · rcases mem_obsBlock hmem with hfix | hmem
            · simp at hfix
            · rcases mem_samplesSplitBlock hmem with h | h | hmem
              · simp at h
              · simp at h
              · rw [htiles] at hmem
                simp at hmem
    · intro hmem
      rcases mem_runMain hmem with hfix | hmem
      · simp at hfix
      · rcases mem_sourceBlock hmem with hfix | hmem
        · simp at hfix
        · rcases mem_afterSourceBlock hmem with hfix | hmem
          · simp at hfix
          · rcases mem_obsBlock hmem with hfix | hmem
            · simp at hfix
            · rcases mem_samplesSplitBlock hmem with h | h | hmem
              · simp at h
              · simp at h
              · rw [htiles] at hmem
                simp at hmem

/-- Witness input for C5: a run with tiling enabled and tag "moc". -/
def optsC5 : Opts :=
  { doEvent := false, doFootprint := false, doSkymap := true, doSamples := false,
    doCoverage := false, doSchedule := false, doPlots := false, doTiles := true,
    doObservability := false, doObservabilityExit := false, doTrueLocation := false,
    doCatalog := false, doSplit := false, doEfficiency := false,
    tilesType := "moc", filters := ["r"], exposuretimes := [30],
    telescopes := ["ATLAS"], observability_thresh := 1/20 }

theorem tiles_type_selects_exactly_one_strategy_witness :
    optsC5.doTiles = true ∧
    (runMain optsC5 obs0).filter isStrategy = [Step.tilingMoc] :=
  ⟨rfl,
   (tiles_type_selects_exactly_one_strategy optsC5 obs0 rfl (by decide)
       (Or.inr (Or.inr rfl))
       (fun h => absurd h (by decide))).1.1 rfl⟩

/-! ### Hierarchical-tiling rebuild (C7) -/

lemma buildTess_foldl (ts : List HierTile) (acc : List (ℕ × ℚ × ℚ)) :
    ts.foldl (fun a e => a ++ [(e.idx, e.ra, e.dec)]) acc =
      acc ++ ts.map (fun e => (e.idx, e.ra, e.dec)) := by
  induction ts generalizing acc with
  | nil => simp
  | cons h t ih => simp [ih]

lemma buildTess_eq_map (ts : List HierTile) :
    buildTess ts = ts.map (fun e => (e.idx, e.ra, e.dec)) := by
  unfold buildTess
  rw [buildTess_foldl]
  simp

lemma hierPost_foldl (ts : String → List HierTile) (l : List String)
    (st : (String → List (ℕ × ℚ × ℚ)) × List ℕ) :
    (l.foldl (fun st tel =>
        (Function.update st.1 tel (buildTess (ts tel)), st.2 ++ [(ts tel).length])) st).2 =
      st.2 ++ l.map (fun t => (ts t).length) ∧
    ∀ tel, (l.foldl (fun st tel =>
        (Function.update st.1 tel (buildTess (ts tel)), st.2 ++ [(ts tel).length])) st).1 tel =
      if tel ∈ l then buildTess (ts tel) else st.1 tel := by
  induction l generalizing st with
  | nil => simp
  | cons h t ih =>
    constructor
    · rw [List.foldl_cons, (ih _).1]
      simp
    · intro tel
      rw [List.foldl_cons, (ih _).2 tel]
      by_cases htel : tel ∈ t
      · simp [htel]
      · by_cases heq : tel = h
        · subst heq
          simp [htel, Function.update_same]
        · simp [htel, heq, Function.update_noteq heq]

/-- C7: after hierarchical tiling, each telescope's tessellation equals the
list of generated tile centers (one `(index, ra, dec)` row per tile, in
order), independently of the previously loaded tessellation table, and
`Ntiles` becomes the list of per-telescope generated tile counts — one
entry per telescope, so counts may differ between telescopes. -/
theorem hierarchical_rebuilds_tessellation_and_ntiles (telescopes : List String)
    (tess0 : String → List (ℕ × ℚ × ℚ)) (tileStructs : String → List HierTile)
    {tel : String} (htel : tel ∈ telescopes) :
    (hierarchicalPost telescopes tess0 tileStructs).2 =
      telescopes.map (fun t => (tileStructs t).length) ∧
    (hierarchicalPost telescopes tess0 tileStructs).1 tel =
      (tileStructs tel).map (fun e => (e.idx, e.ra, e.dec)) := by
  unfold hierarchicalPost
  constructor
  · rw [(hierPost_foldl tileStructs telescopes (tess0, [])).1]
    simp
  · rw [(hierPost_foldl tileStructs telescopes (tess0, [])).2 tel, if_pos htel,
      buildTess_eq_map]

/-- Witness data for C7: two telescopes with different generated tile
counts, and a nonempty prior tessellation table that must be discarded. -/
def telsC7 : List String := ["scopeA", "scopeB"]

def tess0C7 : String → List (ℕ × ℚ × ℚ) := fun _ => [(99, 0, 0)]

def tsC7 : String → List HierTile :=
  fun t => if t = "scopeA" then [⟨0, 10, 20⟩, ⟨1, 30, 40⟩] else [⟨0, 50, 60⟩]

theorem hierarchical_rebuilds_tessellation_and_ntiles_witness :
    "scopeA" ∈ telsC7 ∧
    (hierarchicalPost telsC7 tess0C7 tsC7).2 = [2, 1] ∧
    (hierarchicalPost telsC7 tess0C7 tsC7).1 "scopeA" = [(0, 10, 20), (1, 30, 40)] := by
  have hthm := hierarchical_rebuilds_tessellation_and_ntiles telsC7 tess0C7 tsC7
    (show "scopeA" ∈ telsC7 by simp [telsC7])
  refine ⟨by simp [telsC7], ?_, ?_⟩
  · rw [hthm.1]
    simp [telsC7, tsC7]
  · rw [hthm.2]
    simp [tsC7]

/-! ### Single-exposure configuration update (C10) -/

/-- C10: with single-exposure mode enabled, for every telescope
configuration the exposure time becomes the first entry of the
exposure-times list, the limiting magnitude is shifted by
`-2.5·log10(sqrt(exposuretime_old/exposuretime_new))`, the original values
are preserved in the `_orig` fields, and every other configuration field is
unchanged. -/
theorem single_exposure_update_fields (cfg : TelConfig) (ets : List ℝ) (e0 : ℝ)
    (he : ets.head? = some e0) :
    (applySingleExposure true ets cfg).exposuretime = e0 ∧
    (applySingleExposure true ets cfg).magnitude =
      cfg.magnitude + -2.5 * Real.logb 10 (Real.sqrt (cfg.exposuretime / e0)) ∧
    (applySingleExposure true ets cfg).magnitude_orig = some cfg.magnitude ∧
    (applySingleExposure true ets cfg).exposuretime_orig = some cfg.exposuretime ∧
    (applySingleExposure true ets cfg).telescope = cfg.telescope ∧
    (applySingleExposure true ets cfg).latitude = cfg.latitude ∧
    (applySingleExposure true ets cfg).longitude = cfg.longitude ∧
    (applySingleExposure true ets cfg).elevation = cfg.elevation ∧
    (applySingleExposure true ets cfg).FOV = cfg.FOV ∧
    (applySingleExposure true ets cfg).filt = cfg.filt := by
  cases ets with
  | nil => simp at he
  | cons a t =>
    simp only [List.head?_cons, Option.some.injEq] at he
    subst he
    simp [applySingleExposure, singleExposureUpdate]

/-- Witness configuration for C10. -/
noncomputable def cfgC10 : TelConfig :=
  { telescope := "ATLAS", magnitude := 18, exposuretime := 60, latitude := 1,
    longitude := 2, elevation := 3, FOV := 4, filt := "r",
    magnitude_orig := none, exposuretime_orig := none }

theorem single_exposure_update_fields_witness :
    (([30, 30, 30] : List ℝ).head? = some 30) ∧
    (applySingleExposure true [30, 30, 30] cfgC10).exposuretime = 30 ∧
    (applySingleExposure true [30, 30, 30] cfgC10).exposuretime_orig = some 60 ∧
    (applySingleExposure true [30, 30, 30] cfgC10).magnitude_orig = some 18 ∧
    (applySingleExposure true [30, 30, 30] cfgC10).magnitude =
      18 + -2.5 * Real.logb 10 (Real.sqrt (60 / 30)) ∧
    (applySingleExposure true [30, 30, 30] cfgC10).telescope = "ATLAS" := by
  have hthm := single_exposure_update_fields cfgC10 [30, 30, 30] 30 rfl
  exact ⟨rfl, hthm.1, hthm.2.2.2.1, hthm.2.2.1, hthm.2.1, hthm.2.2.2.2.1⟩

/-! ### Time allocation budget (C1) -/

/-- C1 counterexample: one tile with normalized weight 1 (a normalized
weight list summing to 1), budget 100 and exposure duration 60.  The
spec's rounding rule gives `round(100/60) = 2` exposures, so the total
allocated time is 120 > 100: the sum of `exposure_count ×
exposure_duration` exceeds the budget. -/
theorem allocation_exceeds_budget_counterexample :
    ([(1 : ℚ)].sum = 1) ∧ (∀ w ∈ [(1 : ℚ)], 0 ≤ w) ∧
    totalAllocated 2 [1] 100 60 = 120 ∧
    ¬ totalAllocated 2 [1] 100 60 ≤ 100 := by
  have hval : totalAllocated 2 [1] 100 60 = 120 := by
    have hcount : exposureCount 2 1 100 60 = 2 := by
      unfold exposureCount
      rw [if_neg (by norm_num)]
      norm_num [round_eq]
    simp [totalAllocated, hcount]
    norm_num
  refine ⟨by simp, by simp, hval, by rw [hval]; norm_num⟩

lemma round_le_add_half (x : ℚ) : ((round x : ℤ) : ℚ) ≤ x + 1 / 2 := by
  rw [round_eq]
  exact_mod_cast Int.floor_le (x + 1 / 2)

lemma exposureCount_le (sigThresh w budget duration : ℚ)
    (hw : 0 ≤ w) (hB : 0 ≤ budget) (hd : 0 < duration) :
    ((exposureCount sigThresh w budget duration : ℤ) : ℚ) * duration ≤
      w * budget + 3 / 2 * duration := by
  have hx : (0 : ℚ) ≤ w * budget / duration := by positivity
  have key : ∀ c : ℤ, ((c : ℚ) ≤ w * budget / duration + 3 / 2) →
      ((c : ℚ)) * duration ≤ w * budget + 3 / 2 * duration := by
    intro c hc
    have hmul := mul_le_mul_of_nonneg_right hc hd.le
    calc ((c : ℚ)) * duration ≤ (w * budget / duration + 3 / 2) * duration := hmul
      _ = w * budget / duration * duration + 3 / 2 * duration := by ring
      _ = w * budget + 3 / 2 * duration := by
          rw [div_mul_cancel₀ _ (ne_of_gt hd)]
  have hround := round_le_add_half (w * budget / duration)
  unfold exposureCount
  split_ifs with hsig
  · apply key
    push_cast
    refine max_le ?_ ?_
    · linarith
    · linarith
  · apply key
    linarith

lemma totalAllocated_le (sigThresh budget duration : ℚ)
    (hB : 0 ≤ budget) (hd : 0 < duration) :
    ∀ ws : List ℚ, (∀ w ∈ ws, 0 ≤ w) →
      totalAllocated sigThresh ws budget duration ≤
        budget * ws.sum + (ws.length : ℚ) * (3 / 2 * duration) := by
  intro ws hw
  induction ws with
  | nil => simp [totalAllocated]
  | cons a t ih =>
    have h1 := exposureCount_le sigThresh a budget duration (hw a (by simp)) hB hd
    have h2 := ih (fun w hmem => hw w (by simp [hmem]))
    simp only [totalAllocated, List.map_cons, List.sum_cons, List.length_cons,
      List.sum_cons] at h2 ⊢
    push_cast
    nlinarith [h1, h2]

/-- C1 (amended): for every telescope, with normalized tile weights (sum 1,
each nonnegative), a nonnegative budget and a positive exposure duration,
the spec's rounding rule keeps the total allocated time within the budget
plus at most one-and-a-half exposure durations per tile:
`Σ exposure_count × exposure_duration ≤ budget + (3/2)·n_tiles·duration`.
The original `≤ budget` bound fails because `round` may round up (and the
minimum-one-exposure floor may add up to a whole exposure more). -/
theorem allocation_total_bounded (sigThresh : ℚ) (ws : List ℚ) (budget duration : ℚ)
    (hw : ∀ w ∈ ws, 0 ≤ w) (hsum : ws.sum = 1)
    (hB : 0 ≤ budget) (hd : 0 < duration) :
    totalAllocated sigThresh ws budget duration ≤
      budget + (ws.length : ℚ) * (3 / 2 * duration) := by
  have := totalAllocated_le sigThresh budget duration hB hd ws hw
  rw [hsum, mul_one] at this
  exact this

theorem allocation_total_bounded_witness :
    (∀ w ∈ [(1 : ℚ) / 2, 1 / 2], 0 ≤ w) ∧ ([(1 : ℚ) / 2, 1 / 2].sum = 1) ∧
    totalAllocated 0 [(1 : ℚ) / 2, 1 / 2] 60 30 ≤
      60 + (([(1 : ℚ) / 2, 1 / 2].length : ℚ)) * (3 / 2 * 30) :=
  ⟨by norm_num, by norm_num,
   allocation_total_bounded 0 [(1 : ℚ) / 2, 1 / 2] 60 30 (by norm_num) (by norm_num)
     (by norm_num) (by norm_num)⟩

/-! ### Scheduler invariants (C2) -/

lemma findWindow_bounds {t d s : ℚ} {ws : List Ivl}
    (h : findWindow t d ws = some s) :
    t ≤ s ∧ ∃ w ∈ ws, w.lo ≤ s ∧ s + d ≤ w.hi := by
  induction ws with
  | nil => simp [findWindow] at h
  | cons w rest ih =>
    rw [findWindow] at h
    split_ifs at h with hfit
    · simp only [Option.some.injEq] at h
      subst h
      exact ⟨le_max_left _ _, w, by simp, le_max_right _ _, hfit⟩
    · obtain ⟨h1, w', hw', h2⟩ := ih h
      exact ⟨h1, w', by simp [hw'], h2⟩

lemma greedySchedule_mem (slew : ℚ × ℚ → ℚ × ℚ → ℚ)
    (hslew : ∀ p q, 0 ≤ slew p q) (telId filt : String) :
    ∀ (queue : List SchedTile) (t0 : ℚ) (pos0 : ℚ × ℚ),
      (∀ tile ∈ queue, 0 ≤ tile.expDur) →
      ∀ e ∈ greedySchedule slew telId filt t0 pos0 queue,
        t0 ≤ e.start_time ∧
        ∃ tile ∈ queue, tile.tid = e.tile_id ∧
          e.end_time = e.start_time + tile.expDur ∧
          ∃ w ∈ tile.windows, w.lo ≤ e.start_time ∧ e.end_time ≤ w.hi := by
  intro queue
  induction queue with
  | nil =>
    intro t0 pos0 _ e he
    simp [greedySchedule] at he
  | cons c rest ih =>
    intro t0 pos0 hdur e he
    rcases hfw : findWindow (t0 + slew pos0 (c.ra, c.dec)) c.expDur c.windows with _ | s
    · rw [greedySchedule, hfw] at he
      obtain ⟨h1, tile, htile, hrest⟩ := ih t0 pos0
        (fun tl h => hdur tl (by simp [h])) e he
      exact ⟨h1, tile, by simp [htile], hrest⟩
    · rw [greedySchedule, hfw] at he
      obtain ⟨hts, w, hw, hlo, hfit⟩ := findWindow_bounds hfw
      have ht0s : t0 ≤ s :=
        le_trans (le_add_of_nonneg_right (hslew pos0 (c.ra, c.dec))) hts
      rcases List.mem_cons.mp he with he | he
      · subst he
        exact ⟨ht0s, c, by simp, rfl, rfl, w, hw, hlo, hfit⟩
      · obtain ⟨h1, tile, htile, hrest⟩ := ih (s + c.expDur) (c.ra, c.dec)
          (fun tl h => hdur tl (by simp [h])) e he
        have hc0 : 0 ≤ c.expDur := hdur c (by simp)
        exact ⟨by linarith, tile, by simp [htile], hrest⟩

lemma greedySchedule_chain (slew : ℚ × ℚ → ℚ × ℚ → ℚ)
    (hslew : ∀ p q, 0 ≤ slew p q) (telId filt : String) :
    ∀ (queue : List SchedTile) (t0 : ℚ) (pos0 : ℚ × ℚ),
      (∀ tile ∈ queue, 0 ≤ tile.expDur) →
      List.Chain' (fun a b => a.end_time ≤ b.start_time)
        (greedySchedule slew telId filt t0 pos0 queue) := by
  intro queue
  induction queue with
  | nil =>
    intro t0 pos0 _
    simp [greedySchedule]
  | cons c rest ih =>
    intro t0 pos0 hdur
    rcases hfw : findWindow (t0 + slew pos0 (c.ra, c.dec)) c.expDur c.windows with _ | s
    · rw [greedySchedule, hfw]
      exact ih t0 pos0 (fun tl h => hdur tl (by simp [h]))
    · rw [greedySchedule, hfw]
      refine List.chain'_cons'.mpr ⟨?_, ih (s + c.expDur) (c.ra, c.dec)
        (fun tl h => hdur tl (by simp [h]))⟩
      intro b hb
      have hmem : b ∈ greedySchedule slew telId filt (s + c.expDur) (c.ra, c.dec) rest :=
        List.mem_of_mem_head? hb
      exact (greedySchedule_mem slew hslew telId filt rest (s + c.expDur) (c.ra, c.dec)
        (fun tl h => hdur tl (by simp [h])) b hmem).1

/-- C2: the greedy per-telescope scheduler produces entries that are
strictly time-ordered and pairwise non-overlapping (each entry ends no
later than the next one starts, and every entry has positive length), and
every entry's `[start_time, end_time)` interval lies inside one of its
tile's visibility windows, with `end_time - start_time` equal to the
tile's exposure duration. -/
theorem scheduler_entries_ordered_and_visible
    (slew : ℚ × ℚ → ℚ × ℚ → ℚ) (telId filt : String) (t0 : ℚ) (pos0 : ℚ × ℚ)
    (queue : List SchedTile)
    (hslew : ∀ p q, 0 ≤ slew p q)
    (hdur : ∀ tile ∈ queue, 0 < tile.expDur) :
    (∀ e ∈ greedySchedule slew telId filt t0 pos0 queue,
      e.start_time < e.end_time) ∧
    List.Chain' (fun a b => a.end_time ≤ b.start_time)
      (greedySchedule slew telId filt t0 pos0 queue) ∧
    (∀ e ∈ greedySchedule slew telId filt t0 pos0 queue,
      ∃ tile ∈ queue, tile.tid = e.tile_id ∧
        e.end_time - e.start_time = tile.expDur ∧
        ∃ w ∈ tile.windows, w.lo ≤ e.start_time ∧ e.end_time ≤ w.hi) := by
  have hd0 : ∀ tile ∈ queue, 0 ≤ tile.expDur := fun tl h => (hdur tl h).le
  refine ⟨?_, greedySchedule_chain slew hslew telId filt queue t0 pos0 hd0, ?_⟩
  · intro e he
    obtain ⟨-, tile, htile, -, hend, -⟩ :=
      greedySchedule_mem slew hslew telId filt queue t0 pos0 hd0 e he
    have := hdur tile htile
    linarith [hend]
  · intro e he
    obtain ⟨-, tile, htile, htid, hend, w, hw, hlo, hhi⟩ :=
      greedySchedule_mem slew hslew telId filt queue t0 pos0 hd0 e he
    exact ⟨tile, htile, htid, by rw [hend]; ring, w, hw, hlo, hhi⟩

/-- Witness data for C2: zero slew cost and the spec's Scenario C queue —
two tiles with disjoint visibility windows `[0,10)` and `[20,30)` and
exposure duration 5. -/
def slew0 : ℚ × ℚ → ℚ × ℚ → ℚ := fun _ _ => 0

def queueC2 : List SchedTile :=
  [⟨1, 0, 0, 5, [⟨0, 10⟩]⟩, ⟨2, 1, 1, 5, [⟨20, 30⟩]⟩]

theorem scheduler_entries_ordered_and_visible_witness :
    (∀ p q : ℚ × ℚ, 0 ≤ slew0 p q) ∧
    (∀ tile ∈ queueC2, 0 < tile.expDur) ∧
    (∀ e ∈ greedySchedule slew0 "tel" "r" 0 (0, 0) queueC2,
      e.start_time < e.end_time) ∧
    List.Chain' (fun a b => a.end_time ≤ b.start_time)
      (greedySchedule slew0 "tel" "r" 0 (0, 0) queueC2) := by
  have hslew : ∀ p q : ℚ × ℚ, 0 ≤ slew0 p q := fun _ _ => le_refl 0
  have hdur : ∀ tile ∈ queueC2, 0 < tile.expDur := by
    intro tile h
    simp only [queueC2, List.mem_cons, List.not_mem_nil, or_false] at h
    rcases h with rfl | rfl <;> norm_num
  have hthm := scheduler_entries_ordered_and_visible slew0 "tel" "r" 0 (0, 0) queueC2
    hslew hdur
  exact ⟨hslew, hdur, hthm.1, hthm.2.1⟩

/-! ### Fixed-tessellation determinism (C6) -/

/-- C6: fixed-tessellation tiling is deterministic: it is a pure function
of the tile centers and the grid, and its output — tile identities,
centers and probability masses — does not even depend on the enumeration
order of the grid cells (two runs on the same grid, however enumerated,
give identical tile lists). -/
theorem fixed_tessellation_deterministic (fov : ℚ) (centers : List TessCenter)
    (g g' : List GridCell) (hperm : g.Perm g') :
    fixedTessellation fov centers g = fixedTessellation fov centers g' := by
  unfold fixedTessellation
  apply List.map_congr_left
  intro c _
  have hmass := List.Perm.sum_eq (List.Perm.map (fun cell => cell.probability)
    (List.Perm.filter (inFootprint fov c.ra c.dec) hperm))
  rw [hmass]

/-- Witness data for C6: a one-center tessellation over a two-cell grid,
presented in the two possible enumeration orders. -/
def cellA : GridCell := ⟨0, 0, 0, 1, 7 / 10⟩

def cellB : GridCell := ⟨1, 5, 5, 1, 3 / 10⟩

def centersC6 : List TessCenter := [⟨0, 0, 0⟩]

theorem fixed_tessellation_deterministic_witness :
    ([cellA, cellB].Perm [cellB, cellA]) ∧
    fixedTessellation 1 centersC6 [cellA, cellB] =
      fixedTessellation 1 centersC6 [cellB, cellA] :=
  ⟨List.Perm.swap cellB cellA [],
   fixed_tessellation_deterministic 1 centersC6 [cellA, cellB] [cellB, cellA]
     (List.Perm.swap cellB cellA [])⟩

end Gwemopt
